import Mathlib

/-!
A shallow embedding of the library-checkout system in `TestingFile.py`
(classes `ItemStatus`, `UserRole`, `LibraryUser`, `LibraryItem` and its
subclasses `Book` / `DVD` / `Magazine`, `LibraryDatabase`, `LibrarySystem`),
together with proofs about its operations.

Modelling conventions:
* Python `float` money values are modelled as `ℚ` (the literals involved,
  0.25 / 0.50 / 1.00, are exactly representable, and the claims do not
  depend on rounding).
* `datetime` values are modelled as `Int` (seconds); `timedelta.days` of a
  difference is Euclidean division by 86400, matching Python's floor
  semantics.  `datetime.now()` is passed in as an explicit `now` argument.
* Python dictionaries `users` / `items`, keyed by the entity's own `id`
  field, are modelled as insertion-ordered lists of records; lookup is
  `List.find?` on the `id` field and in-place mutation of a fetched record
  is `List.map` replacing the record with the matching `id`.
* `uuid.uuid4()` is modelled as an explicit id argument; theorems that need
  freshness state it as a hypothesis.
* Exceptions become `Except` errors carrying the Python exception class and
  message; `list.remove` on an absent element raises Python's `ValueError`,
  modelled by the `valueError` class.
-/

namespace LibSys

/-- The `ItemStatus` enum of the source. -/
inductive ItemStatus where
  | available
  | checked_out
  | reserved
  | maintenance
  | lost
deriving DecidableEq, Repr

/-- The `.value` string of each `ItemStatus` member. -/
def ItemStatus.value : ItemStatus → String
  | .available => "available"
  | .checked_out => "checked_out"
  | .reserved => "reserved"
  | .maintenance => "maintenance"
  | .lost => "lost"

/-- Enum member lookup `ItemStatus(v)` construction from the enum value string; Python raises
`ValueError` on an unknown string, modelled by `none`. -/
def ItemStatus.ofValue (v : String) : Option ItemStatus :=
  if v = "available" then some .available
  else if v = "checked_out" then some .checked_out
  else if v = "reserved" then some .reserved
  else if v = "maintenance" then some .maintenance
  else if v = "lost" then some .lost
  else none

/-- The `UserRole` enum of the source. -/
inductive UserRole where
  | student
  | faculty
  | librarian
  | admin
deriving DecidableEq, Repr

/-- The `.value` string of each `UserRole` member. -/
def UserRole.value : UserRole → String
  | .student => "student"
  | .faculty => "faculty"
  | .librarian => "librarian"
  | .admin => "admin"

/-- Enum member lookup `UserRole(v)` construction from the enum value string. -/
def UserRole.ofValue (v : String) : Option UserRole :=
  if v = "student" then some .student
  else if v = "faculty" then some .faculty
  else if v = "librarian" then some .librarian
  else if v = "admin" then some .admin
  else none

/-- The kind-specific part of a library item: the subclass (`Book`, `DVD`,
`Magazine`) together with its extra constructor fields.  A `Magazine`'s
`publication_date` datetime is an `Int` (see the modelling conventions). -/
inductive ItemKind where
  | book (author isbn publisher : String) (publication_year : Int) (edition : String)
  | dvd (director : String) (runtime release_year : Int)
  | magazine (publisher issue_number : String) (publication_date : Int)
deriving DecidableEq, Repr

/-- Method `get_checkout_duration` of each subclass, in seconds
(book: 21 days, DVD: 7 days, magazine: 14 days). -/
def ItemKind.get_checkout_duration : ItemKind → Int
  | .book _ _ _ _ _ => 21 * 86400
  | .dvd _ _ _ => 7 * 86400
  | .magazine _ _ _ => 14 * 86400

/-- Method `get_daily_fine` of each subclass
(book: dollar 0.50, DVD: dollar 1.00, magazine: dollar 0.25). -/
def ItemKind.get_daily_fine : ItemKind → ℚ
  | .book _ _ _ _ _ => 1 / 2
  | .dvd _ _ _ => 1
  | .magazine _ _ _ => 1 / 4

/-- The Python class name of the kind, used as the `type` discriminator in
`to_dict`. -/
def ItemKind.typeName : ItemKind → String
  | .book _ _ _ _ _ => "Book"
  | .dvd _ _ _ => "DVD"
  | .magazine _ _ _ => "Magazine"

/-- Class `LibraryUser` (the `Person` base-class fields flattened in). -/
structure LibraryUser where
  id : String
  name : String
  email : String
  phone : String
  role : UserRole
  borrowed_items : List String
  reserved_items : List String
  fines : ℚ
deriving DecidableEq, Repr

/-- Class `LibraryItem` with the subclass payload in `kind`. -/
structure LibraryItem where
  id : String
  title : String
  location : String
  cost : ℚ
  kind : ItemKind
  status : ItemStatus
  checked_out_to : Option String
  due_date : Option Int
  reserved_by : List String
deriving DecidableEq, Repr

/-- The `LibraryItem.__init__` part of the subclass constructors: status
AVAILABLE, no borrower, no due date, empty reservation queue. -/
def mkLibraryItem (iid title location : String) (cost : ℚ) (kind : ItemKind) :
    LibraryItem :=
  { id := iid, title := title, location := location, cost := cost, kind := kind,
    status := .available, checked_out_to := none, due_date := none, reserved_by := [] }

/-- The in-memory state of `LibraryDatabase`: the `users` and `items`
dictionaries as insertion-ordered lists. -/
structure LibState where
  users : List LibraryUser
  items : List LibraryItem
deriving DecidableEq, Repr

/-- Dictionary lookup `self.database.users.get(uid)`. -/
def findUser (s : LibState) (uid : String) : Option LibraryUser :=
  s.users.find? (fun u => u.id = uid)

/-- Dictionary lookup `self.database.items.get(iid)`. -/
def findItem (s : LibState) (iid : String) : Option LibraryItem :=
  s.items.find? (fun it => it.id = iid)

/-- In-place mutation of the user record whose `id` matches `u.id`. -/
def updateUser (s : LibState) (u : LibraryUser) : LibState :=
  { s with users := s.users.map (fun v => if v.id = u.id then u else v) }

/-- In-place mutation of the item record whose `id` matches `it.id`. -/
def updateItem (s : LibState) (it : LibraryItem) : LibState :=
  { s with items := s.items.map (fun j => if j.id = it.id then it else j) }

/-- The Python exception class of a raised error: `LibraryException` (base),
its subclasses `ItemNotAvailableException` / `UserNotFoundException`, or the
builtin `ValueError` (from `list.remove` on an absent element). -/
inductive ExcClass where
  | libraryException
  | itemNotAvailableException
  | userNotFoundException
  | valueError
deriving DecidableEq, Repr

/-- A raised exception: its class and its message string. -/
structure LibError where
  cls : ExcClass
  msg : String
deriving DecidableEq, Repr

/-- Error `UserNotFoundException(f"User ... not found")`. -/
def userNotFoundErr (uid : String) : LibError :=
  ⟨.userNotFoundException, "User " ++ uid ++ " not found"⟩

/-- Error `LibraryException(f"Item ... not found")`. -/
def itemNotFoundErr (iid : String) : LibError :=
  ⟨.libraryException, "Item " ++ iid ++ " not found"⟩

/-- Error `ItemNotAvailableException(f"Item ... is not available")`. -/
def itemNotAvailableErr (title : String) : LibError :=
  ⟨.itemNotAvailableException, "Item " ++ title ++ " is not available"⟩

/-- Error `LibraryException(f"Item ... is not checked out")`. -/
def notCheckedOutErr (title : String) : LibError :=
  ⟨.libraryException, "Item " ++ title ++ " is not checked out"⟩

/-- Error `LibraryException("User has already reserved this item")`. -/
def alreadyReservedErr : LibError :=
  ⟨.libraryException, "User has already reserved this item"⟩

/-- Error `LibraryException("Payment amount exceeds outstanding fines")`. -/
def overpayErr : LibError :=
  ⟨.libraryException, "Payment amount exceeds outstanding fines"⟩

/-- Error `ValueError("list.remove(x): x not in list")`. -/
def removeMissingErr : LibError :=
  ⟨.valueError, "list.remove(x): x not in list"⟩

/-- Method `LibrarySystem.add_user`: construct a fresh user (generated uuid modelled
as the explicit `uid` argument) and insert it. -/
def add_user (s : LibState) (uid name email phone : String) (role : UserRole) :
    LibState :=
  { s with users := s.users ++
      [{ id := uid, name := name, email := email, phone := phone, role := role,
         borrowed_items := [], reserved_items := [], fines := 0 }] }

/-- Method `LibrarySystem.add_item`: insert the given (freshly constructed) item. -/
def add_item (s : LibState) (it : LibraryItem) : LibState :=
  { s with items := s.items ++ [it] }

/-- Method `LibrarySystem.check_out_item`. -/
def check_out_item (s : LibState) (now : Int) (user_id item_id : String) :
    Except LibError LibState :=
  match findUser s user_id with
  | none => .error (userNotFoundErr user_id)
  | some user =>
    match findItem s item_id with
    | none => .error (itemNotFoundErr item_id)
    | some item =>
      if item.status ≠ ItemStatus.available then
        .error (itemNotAvailableErr item.title)
      else
        .ok (updateUser
              (updateItem s
                { item with status := .checked_out,
                            checked_out_to := some user.id,
                            due_date := some (now + item.kind.get_checkout_duration) })
              { user with borrowed_items := user.borrowed_items ++ [item.id] })

/-- Method `LibrarySystem.return_item`.  The borrower lookup
`users.get(item.checked_out_to)` silently yields no user when
`checked_out_to` is null or unknown; when the borrower is found,
`user.borrowed_items.remove(item.id)` raises `ValueError` if the id is
absent, and a late fee of `(now - due_date).days * get_daily_fine()` accrues
when `now` is past the due date. -/
def return_item (s : LibState) (now : Int) (item_id : String) :
    Except LibError LibState :=
  match findItem s item_id with
  | none => .error (itemNotFoundErr item_id)
  | some item =>
    if item.status ≠ ItemStatus.checked_out then
      .error (notCheckedOutErr item.title)
    else
      match item.checked_out_to.bind (findUser s) with
      | some user =>
        if item.id ∈ user.borrowed_items then
          let user1 := { user with borrowed_items := user.borrowed_items.erase item.id }
          let user2 :=
            match item.due_date with
            | some due =>
              if now > due then
                { user1 with fines := user1.fines +
                    ((Int.ediv (now - due) 86400 : Int) : ℚ) * item.kind.get_daily_fine }
              else user1
            | none => user1
          .ok (updateItem (updateUser s user2) (returnedItem item))
        else
          .error removeMissingErr
      | none =>
        .ok (updateItem s (returnedItem item))
where
  /-- The item after the return bookkeeping: status AVAILABLE and both
  borrower fields cleared, then, if the reservation queue is non-empty, its
  front popped and status flipped to RESERVED. -/
  returnedItem (item : LibraryItem) : LibraryItem :=
    match item.reserved_by with
    | [] => { item with status := .available, checked_out_to := none, due_date := none }
    | _ :: rest =>
      { item with status := .reserved, checked_out_to := none, due_date := none,
                  reserved_by := rest }

/-- Method `LibrarySystem.reserve_item`. -/
def reserve_item (s : LibState) (user_id item_id : String) :
    Except LibError LibState :=
  match findUser s user_id with
  | none => .error (userNotFoundErr user_id)
  | some user =>
    match findItem s item_id with
    | none => .error (itemNotFoundErr item_id)
    | some item =>
      if user_id ∈ item.reserved_by then
        .error alreadyReservedErr
      else
        .ok (updateUser
              (updateItem s { item with reserved_by := item.reserved_by ++ [user_id] })
              { user with reserved_items := user.reserved_items ++ [item_id] })

/-- Method `LibrarySystem.pay_fines`. -/
def pay_fines (s : LibState) (user_id : String) (amount : ℚ) :
    Except LibError LibState :=
  match findUser s user_id with
  | none => .error (userNotFoundErr user_id)
  | some user =>
    if amount > user.fines then
      .error overpayErr
    else
      .ok (updateUser s { user with fines := user.fines - amount })

/-! ## Serialization (`to_dict` / `LibraryDatabase.save_data` / `load_data`)

JSON records are modelled structurally.  An ISO-8601 timestamp string is
represented by the datetime (`Int`) it encodes: Python's
`datetime.isoformat` and `datetime.fromisoformat` are mutually inverse, so
this abstraction is faithful for the round-trip.  A JSON `null` for the
optional `checked_out_to` / `due_date` fields is `none`. -/

/-- The dictionary produced by `LibraryUser.to_dict`. -/
structure UserDict where
  id : String
  name : String
  email : String
  phone : String
  role : String
  borrowed_items : List String
  reserved_items : List String
  fines : ℚ
deriving DecidableEq, Repr

/-- The kind-specific keys that the subclass `to_dict` overrides add to the
base item dictionary. -/
inductive ItemExtra where
  | bookExtra (author isbn publisher : String) (publication_year : Int) (edition : String)
  | dvdExtra (director : String) (runtime release_year : Int)
  | magazineExtra (publisher issue_number : String) (publication_date : Int)
deriving DecidableEq, Repr

/-- The dictionary produced by a `LibraryItem` subclass `to_dict`: the base
keys plus the `type` discriminator and the kind-specific keys. -/
structure ItemDict where
  id : String
  title : String
  location : String
  cost : ℚ
  status : String
  checked_out_to : Option String
  due_date : Option Int
  reserved_by : List String
  type : String
  extra : ItemExtra
deriving DecidableEq, Repr

/-- Method `LibraryUser.to_dict`. -/
def LibraryUser.to_dict (u : LibraryUser) : UserDict :=
  { id := u.id, name := u.name, email := u.email, phone := u.phone,
    role := u.role.value, borrowed_items := u.borrowed_items,
    reserved_items := u.reserved_items, fines := u.fines }

/-- The kind-specific keys written by the subclass `to_dict` override. -/
def ItemKind.toExtra : ItemKind → ItemExtra
  | .book a i p y e => .bookExtra a i p y e
  | .dvd d r y => .dvdExtra d r y
  | .magazine p i d => .magazineExtra p i d

/-- Method `to_dict` of a `LibraryItem` subclass instance (base `LibraryItem.to_dict`
plus the subclass override). -/
def LibraryItem.to_dict (it : LibraryItem) : ItemDict :=
  { id := it.id, title := it.title, location := it.location, cost := it.cost,
    status := it.status.value, checked_out_to := it.checked_out_to,
    due_date := it.due_date, reserved_by := it.reserved_by,
    type := it.kind.typeName, extra := it.kind.toExtra }

/-- The user-loading loop body of `LibraryDatabase.load_data`: rebuild the
user from its dictionary (`UserRole(role)` fails on an unknown string). -/
def loadUser (d : UserDict) : Option LibraryUser :=
  match UserRole.ofValue d.role with
  | none => none
  | some r =>
    some { id := d.id, name := d.name, email := d.email, phone := d.phone,
           role := r, borrowed_items := d.borrowed_items,
           reserved_items := d.reserved_items, fines := d.fines }

/-- The item-loading loop body of `LibraryDatabase.load_data`: dispatch on the
`type` discriminator, rebuild the subclass instance from the kind-specific
keys (a missing key is a `KeyError`, modelled by `none`), then overwrite
`id`, `status`, `checked_out_to`, `due_date` and `reserved_by` from the
dictionary. -/
def loadItem (d : ItemDict) : Option LibraryItem :=
  let kind? : Option ItemKind :=
    if d.type = "Book" then
      match d.extra with
      | .bookExtra a i p y e => some (.book a i p y e)
      | _ => none
    else if d.type = "DVD" then
      match d.extra with
      | .dvdExtra dir r y => some (.dvd dir r y)
      | _ => none
    else if d.type = "Magazine" then
      match d.extra with
      | .magazineExtra p i pd => some (.magazine p i pd)
      | _ => none
    else none
  match kind?, ItemStatus.ofValue d.status with
  | some k, some st =>
    some { id := d.id, title := d.title, location := d.location, cost := d.cost,
           kind := k, status := st, checked_out_to := d.checked_out_to,
           due_date := d.due_date, reserved_by := d.reserved_by }
  | _, _ => none

/-- Method `LibraryDatabase.save_data`: serialize every user and item, in
dictionary insertion order. -/
def save_data (s : LibState) : List UserDict × List ItemDict :=
  (s.users.map LibraryUser.to_dict, s.items.map LibraryItem.to_dict)

/-- The user-loading loop of `load_data`: rebuild each user in order; a
failure (raised exception) aborts the whole load. -/
def loadUsers : List UserDict → Option (List LibraryUser)
  | [] => some []
  | d :: ds =>
    match loadUser d, loadUsers ds with
    | some u, some us => some (u :: us)
    | _, _ => none

/-- The item-loading loop of `load_data`. -/
def loadItems : List ItemDict → Option (List LibraryItem)
  | [] => some []
  | d :: ds =>
    match loadItem d, loadItems ds with
    | some it, some its => some (it :: its)
    | _, _ => none

/-- Method `LibraryDatabase.load_data` applied to saved data: rebuild every user and
item, in order; any per-record failure aborts the load. -/
def load_data (d : List UserDict × List ItemDict) : Option LibState :=
  match loadUsers d.1, loadItems d.2 with
  | some us, some its => some { users := us, items := its }
  | _, _ => none

/-! ## Invariants -/

/-- Claim C3's invariant: an item's status is CHECKED_OUT exactly when both
`checked_out_to` and `due_date` are non-null. -/
def statusFieldInv (s : LibState) : Prop :=
  ∀ it ∈ s.items,
    (it.status = ItemStatus.checked_out ↔
      (it.checked_out_to ≠ none ∧ it.due_date ≠ none))

/-- The borrowed-side mirror: an item id appears in a user's
`borrowed_items` exactly when the item's `checked_out_to` is that user. -/
def borrowedMirror (s : LibState) : Prop :=
  ∀ u ∈ s.users, ∀ it ∈ s.items,
    (it.id ∈ u.borrowed_items ↔ it.checked_out_to = some u.id)

/-- The reserved-side mirror: an item id appears in a user's
`reserved_items` exactly when the user's id is in the item's `reserved_by`
queue. -/
def reservedMirror (s : LibState) : Prop :=
  ∀ u ∈ s.users, ∀ it ∈ s.items,
    (it.id ∈ u.reserved_items ↔ u.id ∈ it.reserved_by)

/-- Both directions of claim C2's mirror invariant. -/
def mirrorInv (s : LibState) : Prop :=
  borrowedMirror s ∧ reservedMirror s

/-- The dictionary-key discipline plus per-field consistency that the engine
maintains and that makes the borrowed-side mirror inductive: user and item
ids are duplicate-free (they are dictionary keys), each `borrowed_items`
list is duplicate-free, the status is CHECKED_OUT exactly when
`checked_out_to` is set, and `checked_out_to` and `due_date` are set
together. -/
def storeWf (s : LibState) : Prop :=
  (s.users.map LibraryUser.id).Nodup ∧
  (s.items.map LibraryItem.id).Nodup ∧
  (∀ u ∈ s.users, u.borrowed_items.Nodup) ∧
  (∀ it ∈ s.items,
    (it.status = ItemStatus.checked_out ↔ it.checked_out_to ≠ none) ∧
    (it.checked_out_to = none ↔ it.due_date = none))

instance (s : LibState) : Decidable (statusFieldInv s) := by
  unfold statusFieldInv; infer_instance

instance (s : LibState) : Decidable (borrowedMirror s) := by
  unfold borrowedMirror; infer_instance

instance (s : LibState) : Decidable (reservedMirror s) := by
  unfold reservedMirror; infer_instance

instance (s : LibState) : Decidable (mirrorInv s) := by
  unfold mirrorInv; infer_instance

instance (s : LibState) : Decidable (storeWf s) := by
  unfold storeWf; infer_instance

/-! ## Lookup / update lemmas -/

theorem findUser_updateItem (s : LibState) (it : LibraryItem) (uid : String) :
    findUser (updateItem s it) uid = findUser s uid := rfl

theorem findItem_updateUser (s : LibState) (u : LibraryUser) (iid : String) :
    findItem (updateUser s u) iid = findItem s iid := rfl

theorem users_updateItem (s : LibState) (it : LibraryItem) :
    (updateItem s it).users = s.users := rfl

theorem items_updateUser (s : LibState) (u : LibraryUser) :
    (updateUser s u).items = s.items := rfl

theorem find?_id_map_update (l : List LibraryUser) (k : String) (a b : LibraryUser)
    (h : l.find? (fun x => x.id = k) = some a) (hb : b.id = a.id) :
    (l.map (fun x => if x.id = b.id then b else x)).find? (fun x => x.id = k) =
      some b := by
  induction l with
  | nil => simp at h
  | cons x xs ih =>
    by_cases hx : x.id = k
    · rw [List.find?_cons_of_pos _ (by simp [hx])] at h
      injection h with h
      subst h
      simp only [List.map_cons]
      rw [if_pos (by rw [hb])]
      exact List.find?_cons_of_pos _ (by simp [hb, hx])
    · rw [List.find?_cons_of_neg _ (by simp [hx])] at h
      have ha : a.id = k := by simpa using List.find?_some h
      simp only [List.map_cons]
      by_cases hxb : x.id = b.id
      · exact absurd (hxb.trans (hb.trans ha)) hx
      · rw [if_neg hxb, List.find?_cons_of_neg _ (by simp [hx])]
        exact ih h

theorem find?_iid_map_update (l : List LibraryItem) (k : String) (a b : LibraryItem)
    (h : l.find? (fun x => x.id = k) = some a) (hb : b.id = a.id) :
    (l.map (fun x => if x.id = b.id then b else x)).find? (fun x => x.id = k) =
      some b := by
  induction l with
  | nil => simp at h
  | cons x xs ih =>
    by_cases hx : x.id = k
    · rw [List.find?_cons_of_pos _ (by simp [hx])] at h
      injection h with h
      subst h
      simp only [List.map_cons]
      rw [if_pos (by rw [hb])]
      exact List.find?_cons_of_pos _ (by simp [hb, hx])
    · rw [List.find?_cons_of_neg _ (by simp [hx])] at h
      have ha : a.id = k := by simpa using List.find?_some h
      simp only [List.map_cons]
      by_cases hxb : x.id = b.id
      · exact absurd (hxb.trans (hb.trans ha)) hx
      · rw [if_neg hxb, List.find?_cons_of_neg _ (by simp [hx])]
        exact ih h

theorem findUser_updateUser (s : LibState) (uid : String) (a b : LibraryUser)
    (h : findUser s uid = some a) (hb : b.id = a.id) :
    findUser (updateUser s b) uid = some b :=
  find?_id_map_update s.users uid a b h hb

theorem findItem_updateItem (s : LibState) (iid : String) (a b : LibraryItem)
    (h : findItem s iid = some a) (hb : b.id = a.id) :
    findItem (updateItem s b) iid = some b :=
  find?_iid_map_update s.items iid a b h hb

/-- The id of the item after the return bookkeeping is unchanged. -/
theorem returnedItem_id (it : LibraryItem) :
    (return_item.returnedItem it).id = it.id := by
  unfold return_item.returnedItem
  cases it.reserved_by <;> rfl

theorem returnedItem_reserved_by (it : LibraryItem) :
    (return_item.returnedItem it).reserved_by = it.reserved_by.tail := by
  unfold return_item.returnedItem
  cases it.reserved_by <;> rfl

theorem returnedItem_checked_out_to (it : LibraryItem) :
    (return_item.returnedItem it).checked_out_to = none := by
  unfold return_item.returnedItem
  cases it.reserved_by <;> rfl

theorem returnedItem_due_date (it : LibraryItem) :
    (return_item.returnedItem it).due_date = none := by
  unfold return_item.returnedItem
  cases it.reserved_by <;> rfl

theorem returnedItem_status_of_reserved (it : LibraryItem)
    (h : it.reserved_by ≠ []) :
    (return_item.returnedItem it).status = ItemStatus.reserved := by
  unfold return_item.returnedItem
  cases hr : it.reserved_by with
  | nil => exact absurd hr h
  | cons x xs => rfl

theorem returnedItem_status_of_empty (it : LibraryItem)
    (h : it.reserved_by = []) :
    (return_item.returnedItem it).status = ItemStatus.available := by
  unfold return_item.returnedItem
  rw [h]

/-! ## Claim theorems -/

/-- C1: returning a CHECKED_OUT item succeeds; the front entry of the
reservation queue is removed (the rest kept in order) and the status becomes
RESERVED when the queue was non-empty, AVAILABLE when it was empty; in both
cases `checked_out_to` and `due_date` are left null.  (The side condition
`hok` states that the recorded borrower, when it resolves to a user, indeed
holds the item in `borrowed_items` — guaranteed in engine-produced states by
the mirror invariant; without it Python's `list.remove` would raise.) -/
theorem C1_return_item_reservation_queue (s : LibState) (now : Int)
    (iid : String) (item : LibraryItem) (hi : findItem s iid = some item)
    (hst : item.status = ItemStatus.checked_out)
    (hok : ∀ b u, item.checked_out_to = some b → findUser s b = some u →
      item.id ∈ u.borrowed_items) :
    ∃ s' item', return_item s now iid = Except.ok s' ∧
      findItem s' iid = some item' ∧
      item'.reserved_by = item.reserved_by.tail ∧
      item'.checked_out_to = none ∧
      item'.due_date = none ∧
      (item.reserved_by ≠ [] → item'.status = ItemStatus.reserved) ∧
      (item.reserved_by = [] → item'.status = ItemStatus.available) := by
  cases hbind : item.checked_out_to.bind (findUser s) with
  | none =>
    refine ⟨updateItem s (return_item.returnedItem item),
      return_item.returnedItem item, ?_, ?_,
      returnedItem_reserved_by item, returnedItem_checked_out_to item,
      returnedItem_due_date item,
      returnedItem_status_of_reserved item, returnedItem_status_of_empty item⟩
    · simp only [return_item, hi, hbind]
      rw [if_neg (by simp [hst])]
    · exact findItem_updateItem _ _ item _ hi (returnedItem_id item)
  | some user =>
    obtain ⟨b, hb, hub⟩ := Option.bind_eq_some.mp hbind
    have hmem : item.id ∈ user.borrowed_items := hok b user hb hub
    refine ⟨updateItem (updateUser s
        (match item.due_date with
          | some due =>
            if now > due then
              { user with borrowed_items := user.borrowed_items.erase item.id,
                          fines := user.fines +
                            ((Int.ediv (now - due) 86400 : Int) : ℚ) *
                              item.kind.get_daily_fine }
            else { user with borrowed_items := user.borrowed_items.erase item.id }
          | none => { user with borrowed_items := user.borrowed_items.erase item.id }))
        (return_item.returnedItem item),
      return_item.returnedItem item, ?_, ?_,
      returnedItem_reserved_by item, returnedItem_checked_out_to item,
      returnedItem_due_date item,
      returnedItem_status_of_reserved item, returnedItem_status_of_empty item⟩
    · simp only [return_item, hi, hbind]
      rw [if_neg (by simp [hst]), if_pos hmem]
    · refine findItem_updateItem _ _ item _ ?_ (returnedItem_id item)
      rw [findItem_updateUser]
      exact hi

/-- C4: returning a checked-out item strictly after its due date adds
`floor((now - due_date) in whole days) * get_daily_fine()` to the resolved
borrower's fine balance (in particular, a Book — 21-day loan, half a dollar
per day — returned 25 days after checkout accrues exactly 2.00; see the
witness). -/
theorem C4_late_fine (s : LibState) (now : Int) (iid b : String)
    (item : LibraryItem) (user : LibraryUser) (due : Int)
    (hi : findItem s iid = some item)
    (hst : item.status = ItemStatus.checked_out)
    (hb : item.checked_out_to = some b)
    (hu : findUser s b = some user)
    (hmem : item.id ∈ user.borrowed_items)
    (hdue : item.due_date = some due)
    (hlate : now > due) :
    ∃ s' user', return_item s now iid = Except.ok s' ∧
      findUser s' b = some user' ∧
      user'.fines = user.fines +
        ((Int.ediv (now - due) 86400 : Int) : ℚ) * item.kind.get_daily_fine := by
  have hbind : item.checked_out_to.bind (findUser s) = some user := by
    rw [hb, Option.some_bind]
    exact hu
  refine ⟨updateItem (updateUser s
      { user with borrowed_items := user.borrowed_items.erase item.id,
                  fines := user.fines +
                    ((Int.ediv (now - due) 86400 : Int) : ℚ) *
                      item.kind.get_daily_fine })
      (return_item.returnedItem item),
    { user with borrowed_items := user.borrowed_items.erase item.id,
                fines := user.fines +
                  ((Int.ediv (now - due) 86400 : Int) : ℚ) *
                    item.kind.get_daily_fine },
    ?_, ?_, rfl⟩
  · simp only [return_item, hi, hbind, hdue]
    rw [if_neg (by simp [hst]), if_pos hmem, if_pos hlate]
  · rw [findUser_updateItem]
    exact findUser_updateUser s b user _ hu rfl

/-- C5: for a resolvable user and item, `check_out_item` on an AVAILABLE item
succeeds, sets status CHECKED_OUT, `checked_out_to` to the user's id,
`due_date` to now plus the kind's checkout duration (book 21 days, DVD 7
days, magazine 14 days), and appends the item id to the user's
`borrowed_items`; on a non-AVAILABLE item it fails with the
ItemNotAvailable error. -/
theorem C5_check_out_item (s : LibState) (now : Int) (uid iid : String)
    (user : LibraryUser) (item : LibraryItem)
    (hu : findUser s uid = some user) (hi : findItem s iid = some item) :
    (item.status = ItemStatus.available →
      ∃ s' item' user', check_out_item s now uid iid = Except.ok s' ∧
        findItem s' iid = some item' ∧ findUser s' uid = some user' ∧
        item'.status = ItemStatus.checked_out ∧
        item'.checked_out_to = some user.id ∧
        item'.due_date = some (now + item.kind.get_checkout_duration) ∧
        user'.borrowed_items = user.borrowed_items ++ [item.id]) ∧
    (item.status ≠ ItemStatus.available →
      check_out_item s now uid iid =
        Except.error (itemNotAvailableErr item.title)) ∧
    (∀ a i p y e, (ItemKind.book a i p y e).get_checkout_duration = 21 * 86400) ∧
    (∀ d r y, (ItemKind.dvd d r y).get_checkout_duration = 7 * 86400) ∧
    (∀ p i d, (ItemKind.magazine p i d).get_checkout_duration = 14 * 86400) := by
  refine ⟨?_, ?_, fun _ _ _ _ _ => rfl, fun _ _ _ => rfl, fun _ _ _ => rfl⟩
  · intro hav
    refine ⟨updateUser (updateItem s
        { item with status := .checked_out, checked_out_to := some user.id,
                    due_date := some (now + item.kind.get_checkout_duration) })
        { user with borrowed_items := user.borrowed_items ++ [item.id] },
      { item with status := .checked_out, checked_out_to := some user.id,
                  due_date := some (now + item.kind.get_checkout_duration) },
      { user with borrowed_items := user.borrowed_items ++ [item.id] },
      ?_, ?_, ?_, rfl, rfl, rfl, rfl⟩
    · simp only [check_out_item, hu, hi]
      rw [if_neg (by simp [hav])]
    · rw [findItem_updateUser]
      exact findItem_updateItem _ _ item _ hi rfl
    · exact findUser_updateUser (updateItem s _) uid user _ hu rfl
  · intro hnav
    simp only [check_out_item, hu, hi]
    rw [if_pos (by simpa using hnav)]

/-- C6: for a resolvable user and item, `reserve_item` fails when the user id
is already in `reserved_by` (so a second reservation by the same user always
fails), and otherwise appends the user id at the back of `reserved_by` and
the item id at the back of the user's `reserved_items`, preserving FIFO
order. -/
theorem C6_reserve_item (s : LibState) (uid iid : String)
    (user : LibraryUser) (item : LibraryItem)
    (hu : findUser s uid = some user) (hi : findItem s iid = some item) :
    (uid ∈ item.reserved_by →
      reserve_item s uid iid = Except.error alreadyReservedErr) ∧
    (uid ∉ item.reserved_by →
      ∃ s' user' item', reserve_item s uid iid = Except.ok s' ∧
        findUser s' uid = some user' ∧ findItem s' iid = some item' ∧
        item'.reserved_by = item.reserved_by ++ [uid] ∧
        user'.reserved_items = user.reserved_items ++ [iid] ∧
        reserve_item s' uid iid = Except.error alreadyReservedErr) := by
  constructor
  · intro hmem
    simp only [reserve_item, hu, hi]
    rw [if_pos hmem]
  · intro hnot
    have hstep : reserve_item s uid iid = Except.ok
        (updateUser (updateItem s { item with reserved_by := item.reserved_by ++ [uid] })
          { user with reserved_items := user.reserved_items ++ [iid] }) := by
      simp only [reserve_item, hu, hi]
      rw [if_neg hnot]
    have hu' : findUser
        (updateUser (updateItem s { item with reserved_by := item.reserved_by ++ [uid] })
          { user with reserved_items := user.reserved_items ++ [iid] }) uid =
        some { user with reserved_items := user.reserved_items ++ [iid] } :=
      findUser_updateUser _ uid user _ hu rfl
    have hi' : findItem
        (updateUser (updateItem s { item with reserved_by := item.reserved_by ++ [uid] })
          { user with reserved_items := user.reserved_items ++ [iid] }) iid =
        some { item with reserved_by := item.reserved_by ++ [uid] } := by
      rw [findItem_updateUser]
      exact findItem_updateItem _ _ item _ hi rfl
    refine ⟨_, _, _, hstep, hu', hi', rfl, rfl, ?_⟩
    simp only [reserve_item, hu', hi']
    rw [if_pos (by simp)]

/-- C7: for a resolvable user, `pay_fines` fails when the amount strictly
exceeds the current fine balance and otherwise decrements the balance by
exactly the amount; paying the exact balance leaves it at 0. -/
theorem C7_pay_fines (s : LibState) (uid : String) (amount : ℚ)
    (user : LibraryUser) (hu : findUser s uid = some user) :
    (amount > user.fines → pay_fines s uid amount = Except.error overpayErr) ∧
    (amount ≤ user.fines →
      ∃ s' user', pay_fines s uid amount = Except.ok s' ∧
        findUser s' uid = some user' ∧ user'.fines = user.fines - amount) ∧
    (amount = user.fines →
      ∃ s' user', pay_fines s uid amount = Except.ok s' ∧
        findUser s' uid = some user' ∧ user'.fines = 0) := by
  refine ⟨?_, ?_, ?_⟩
  · intro hgt
    simp only [pay_fines, hu]
    rw [if_pos hgt]
  · intro hle
    refine ⟨updateUser s { user with fines := user.fines - amount },
      { user with fines := user.fines - amount },
      ?_, findUser_updateUser s uid user _ hu rfl, rfl⟩
    simp only [pay_fines, hu]
    rw [if_neg (not_lt.mpr hle)]
  · intro heq
    refine ⟨updateUser s { user with fines := user.fines - amount },
      { user with fines := user.fines - amount },
      ?_, findUser_updateUser s uid user _ hu rfl, ?_⟩
    · simp only [pay_fines, hu]
      rw [if_neg (not_lt.mpr (le_of_eq heq))]
    · simp [heq]

/-- C10: `pay_fines` places no lower bound on the amount: any amount at most
the balance (negative amounts included) succeeds and sets the balance to
balance minus amount, so a strictly negative amount strictly increases the
balance. -/
theorem C10_pay_fines_no_lower_bound (s : LibState) (uid : String) (amount : ℚ)
    (user : LibraryUser) (hu : findUser s uid = some user) :
    (amount ≤ user.fines →
      ∃ s' user', pay_fines s uid amount = Except.ok s' ∧
        findUser s' uid = some user' ∧
        user'.fines = user.fines - amount ∧
        (amount < 0 → user'.fines > user.fines)) := by
  intro hle
  refine ⟨updateUser s { user with fines := user.fines - amount },
    { user with fines := user.fines - amount },
    ?_, findUser_updateUser s uid user _ hu rfl, rfl, ?_⟩
  · simp only [pay_fines, hu]
    rw [if_neg (not_lt.mpr hle)]
  · intro hneg
    simp only
    linarith

/-- After the return bookkeeping the status is AVAILABLE or RESERVED,
never CHECKED_OUT. -/
theorem returnedItem_not_checked_out (it : LibraryItem) :
    (return_item.returnedItem it).status ≠ ItemStatus.checked_out := by
  unfold return_item.returnedItem
  cases it.reserved_by <;> simp

/-- C3: in the empty initial store every item (vacuously) satisfies
`status = CHECKED_OUT ↔ (checked_out_to ≠ null ∧ due_date ≠ null)`, and every
engine operation (check-out, return, reserve, payment, adding a user, adding
a freshly constructed item) preserves this invariant, so it holds in every
reachable state. -/
theorem C3_checked_out_iff_fields :
    statusFieldInv ⟨[], []⟩ ∧
    (∀ s now uid iid s', statusFieldInv s →
      check_out_item s now uid iid = Except.ok s' → statusFieldInv s') ∧
    (∀ s now iid s', statusFieldInv s →
      return_item s now iid = Except.ok s' → statusFieldInv s') ∧
    (∀ s uid iid s', statusFieldInv s →
      reserve_item s uid iid = Except.ok s' → statusFieldInv s') ∧
    (∀ s uid amount s', statusFieldInv s →
      pay_fines s uid amount = Except.ok s' → statusFieldInv s') ∧
    (∀ s uid nm em ph r, statusFieldInv s →
      statusFieldInv (add_user s uid nm em ph r)) ∧
    (∀ s iid t l c k, statusFieldInv s →
      statusFieldInv (add_item s (mkLibraryItem iid t l c k))) := by
  refine ⟨?_, ?_, ?_, ?_, ?_, ?_, ?_⟩
  · intro it hit
    simp at hit
  · intro s now uid iid s' hinv hok
    simp only [check_out_item] at hok
    cases hfu : findUser s uid with
    | none => simp [hfu] at hok
    | some user =>
      cases hfi : findItem s iid with
      | none => simp [hfu, hfi] at hok
      | some item =>
        simp only [hfu, hfi] at hok
        split at hok
        · exact absurd hok (by simp)
        · injection hok with h
          subst h
          intro it hit
          rw [items_updateUser] at hit
          simp only [updateItem] at hit
          obtain ⟨j, hj, rfl⟩ := List.mem_map.mp hit
          split
          · simp
          · exact hinv j hj
  · intro s now iid s' hinv hok
    simp only [return_item] at hok
    cases hfi : findItem s iid with
    | none => simp [hfi] at hok
    | some item =>
      simp only [hfi] at hok
      split at hok
      · exact absurd hok (by simp)
      · cases hbind : item.checked_out_to.bind (findUser s) with
        | none =>
          simp only [hbind] at hok
          injection hok with h
          subst h
          intro it hit
          simp only [updateItem] at hit
          obtain ⟨j, hj, rfl⟩ := List.mem_map.mp hit
          split
          · simp [returnedItem_checked_out_to, returnedItem_due_date,
              returnedItem_not_checked_out]
          · exact hinv j hj
        | some user =>
          simp only [hbind] at hok
          split at hok
          · injection hok with h
            subst h
            intro it hit
            rw [show (updateItem (updateUser s _) (return_item.returnedItem item)).items =
              (updateUser s _).items.map _ from rfl] at hit
            rw [items_updateUser] at hit
            obtain ⟨j, hj, rfl⟩ := List.mem_map.mp hit
            split
            · simp [returnedItem_checked_out_to, returnedItem_due_date,
                returnedItem_not_checked_out]
            · exact hinv j hj
          · exact absurd hok (by simp)
  · intro s uid iid s' hinv hok
    simp only [reserve_item] at hok
    cases hfu : findUser s uid with
    | none => simp [hfu] at hok
    | some user =>
      cases hfi : findItem s iid with
      | none => simp [hfu, hfi] at hok
      | some item =>
        simp only [hfu, hfi] at hok
        split at hok
        · exact absurd hok (by simp)
        · injection hok with h
          subst h
          intro it hit
          rw [items_updateUser] at hit
          simp only [updateItem] at hit
          obtain ⟨j, hj, rfl⟩ := List.mem_map.mp hit
          split
          · simpa using hinv item (List.mem_of_find?_eq_some hfi)
          · exact hinv j hj
  · intro s uid amount s' hinv hok
    simp only [pay_fines] at hok
    cases hfu : findUser s uid with
    | none => simp [hfu] at hok
    | some user =>
      simp only [hfu] at hok
      split at hok
      · exact absurd hok (by simp)
      · injection hok with h
        subst h
        intro it hit
        rw [items_updateUser] at hit
        exact hinv it hit
  · intro s uid nm em ph r hinv it hit
    exact hinv it hit
  · intro s iid t l c k hinv it hit
    rcases List.mem_append.mp hit with h | h
    · exact hinv it h
    · rcases List.mem_singleton.mp h with rfl
      simp [mkLibraryItem]

theorem userRole_ofValue_value (r : UserRole) : UserRole.ofValue r.value = some r := by
  cases r <;> rfl

theorem itemStatus_ofValue_value (st : ItemStatus) :
    ItemStatus.ofValue st.value = some st := by
  cases st <;> rfl

/-- Loading the dictionary written for a user reproduces the user exactly. -/
theorem loadUser_to_dict (u : LibraryUser) : loadUser u.to_dict = some u := by
  obtain ⟨i, n, e, p, r, b, rs, f⟩ := u
  cases r <;> rfl

/-- Loading the dictionary written for an item reproduces the item exactly,
whatever its kind and status. -/
theorem loadItem_to_dict (it : LibraryItem) : loadItem it.to_dict = some it := by
  obtain ⟨i, t, l, c, k, st, co, dd, rb⟩ := it
  cases k <;> cases st <;> rfl

theorem loadUsers_to_dict (l : List LibraryUser) :
    loadUsers (l.map LibraryUser.to_dict) = some l := by
  induction l with
  | nil => rfl
  | cons x xs ih => simp [loadUsers, loadUser_to_dict x, ih]

theorem loadItems_to_dict (l : List LibraryItem) :
    loadItems (l.map LibraryItem.to_dict) = some l := by
  induction l with
  | nil => rfl
  | cons x xs ih => simp [loadItems, loadItem_to_dict x, ih]

/-- C8: saving the whole store and loading it back reproduces every user and
item record exactly — every field, the `type` kind discriminator, status
string, `reserved_by` queue and (ISO-8601-encoded) timestamps included, with
null optional fields preserved as null. -/
theorem C8_save_load_roundtrip (s : LibState) :
    load_data (save_data s) = some s := by
  simp only [load_data, save_data, loadUsers_to_dict, loadItems_to_dict]

theorem users_updateUser (s : LibState) (u : LibraryUser) :
    (updateUser s u).users = s.users.map (fun v => if v.id = u.id then u else v) := rfl

theorem items_updateItem (s : LibState) (it : LibraryItem) :
    (updateItem s it).items = s.items.map (fun j => if j.id = it.id then it else j) := rfl

/-- An element of an id-keyed in-place update is the new record or an
untouched old record with a different id. -/
theorem mem_update_users {l : List LibraryUser} {u' v' : LibraryUser}
    (h : v' ∈ l.map (fun v => if v.id = u'.id then u' else v)) :
    v' = u' ∨ (v' ∈ l ∧ v'.id ≠ u'.id) := by
  obtain ⟨v, hv, rfl⟩ := List.mem_map.mp h
  by_cases hc : v.id = u'.id
  · left
    rw [if_pos hc]
  · right
    rw [if_neg hc]
    exact ⟨hv, hc⟩

theorem mem_update_items {l : List LibraryItem} {i' j' : LibraryItem}
    (h : j' ∈ l.map (fun j => if j.id = i'.id then i' else j)) :
    j' = i' ∨ (j' ∈ l ∧ j'.id ≠ i'.id) := by
  obtain ⟨j, hj, rfl⟩ := List.mem_map.mp h
  by_cases hc : j.id = i'.id
  · left
    rw [if_pos hc]
  · right
    rw [if_neg hc]
    exact ⟨hj, hc⟩

/-- An id-keyed in-place update leaves the list of user ids unchanged. -/
theorem map_id_update_users (l : List LibraryUser) (u' : LibraryUser) :
    ((l.map (fun v => if v.id = u'.id then u' else v)).map LibraryUser.id) =
      l.map LibraryUser.id := by
  rw [List.map_map]
  apply List.map_congr_left
  intro v _
  by_cases hc : v.id = u'.id
  · simp only [Function.comp_apply, if_pos hc]
    exact hc.symm
  · simp only [Function.comp_apply, if_neg hc]

theorem map_id_update_items (l : List LibraryItem) (i' : LibraryItem) :
    ((l.map (fun j => if j.id = i'.id then i' else j)).map LibraryItem.id) =
      l.map LibraryItem.id := by
  rw [List.map_map]
  apply List.map_congr_left
  intro j _
  by_cases hc : j.id = i'.id
  · simp only [Function.comp_apply, if_pos hc]
    exact hc.symm
  · simp only [Function.comp_apply, if_neg hc]

theorem findUser_mem {s : LibState} {uid : String} {user : LibraryUser}
    (h : findUser s uid = some user) : user ∈ s.users ∧ user.id = uid :=
  ⟨List.mem_of_find?_eq_some h, by simpa using List.find?_some h⟩

theorem findItem_mem {s : LibState} {iid : String} {item : LibraryItem}
    (h : findItem s iid = some item) : item ∈ s.items ∧ item.id = iid :=
  ⟨List.mem_of_find?_eq_some h, by simpa using List.find?_some h⟩

theorem libError_ne_of_cls {c1 c2 : ExcClass} {m1 m2 : String} (h : c1 ≠ c2) :
    (⟨c1, m1⟩ : LibError) ≠ ⟨c2, m2⟩ :=
  fun he => h (congrArg LibError.cls he)

theorem libError_ne_of_msg {c : ExcClass} {m1 m2 : String} (h : m1 ≠ m2) :
    (⟨c, m1⟩ : LibError) ≠ ⟨c, m2⟩ :=
  fun he => h (congrArg LibError.msg he)

theorem ne_of_last_char {s1 s2 : String}
    (h : s1.data.getLast? ≠ s2.data.getLast?) : s1 ≠ s2 :=
  fun he => h (by rw [he])

/-- Operation `check_out_item` preserves store well-formedness and both mirror
directions. -/
theorem check_out_item_preserves (s : LibState) (now : Int) (uid iid : String)
    (s' : LibState) (hwf : storeWf s) (hbm : borrowedMirror s)
    (hrm : reservedMirror s)
    (hok : check_out_item s now uid iid = Except.ok s') :
    storeWf s' ∧ borrowedMirror s' ∧ reservedMirror s' := by
  obtain ⟨hNU, hNI, hBN, hF⟩ := hwf
  simp only [check_out_item] at hok
  cases hfu : findUser s uid with
  | none => simp [hfu] at hok
  | some user =>
    cases hfi : findItem s iid with
    | none => simp [hfu, hfi] at hok
    | some item =>
      simp only [hfu, hfi] at hok
      split at hok
      · exact absurd hok (by simp)
      · rename_i hav'
        have hav : item.status = ItemStatus.available := not_not.mp hav'
        injection hok with h
        subst h
        obtain ⟨hmemU, hidU⟩ := findUser_mem hfu
        obtain ⟨hmemI, hidI⟩ := findItem_mem hfi
        have hCnone : item.checked_out_to = none := by
          by_contra hc
          have h2 := (hF item hmemI).1.mpr hc
          rw [hav] at h2
          exact absurd h2 (by decide)
        refine ⟨⟨?_, ?_, ?_, ?_⟩, ?_, ?_⟩
        · rw [users_updateUser, users_updateItem, map_id_update_users]
          exact hNU
        · rw [items_updateUser, items_updateItem, map_id_update_items]
          exact hNI
        · intro v' hv'
          rw [users_updateUser, users_updateItem] at hv'
          rcases mem_update_users hv' with rfl | ⟨hv, _⟩
          · show (user.borrowed_items ++ [item.id]).Nodup
            refine List.Nodup.append (hBN user hmemU) (by simp) ?_
            intro a ha hb
            rw [List.mem_singleton] at hb
            subst hb
            have h3 := (hbm user hmemU item hmemI).mp ha
            rw [hCnone] at h3
            exact Option.noConfusion h3
          · exact hBN v' hv
        · intro j' hj'
          rw [items_updateUser, items_updateItem] at hj'
          rcases mem_update_items hj' with rfl | ⟨hj, _⟩
          · exact ⟨by simp, by simp⟩
          · exact hF j' hj
        · intro v' hv' j' hj'
          rw [users_updateUser, users_updateItem] at hv'
          rw [items_updateUser, items_updateItem] at hj'
          rcases mem_update_users hv' with rfl | ⟨hv, hvne⟩ <;>
            rcases mem_update_items hj' with rfl | ⟨hj, hjne⟩
          · show item.id ∈ user.borrowed_items ++ [item.id] ↔
              some user.id = some user.id
            simp
          · have hjne2 : j'.id ≠ item.id := hjne
            have base := hbm user hmemU j' hj
            show j'.id ∈ user.borrowed_items ++ [item.id] ↔
              j'.checked_out_to = some user.id
            rw [List.mem_append, List.mem_singleton]
            simp [hjne2, base]
          · have hvne2 : v'.id ≠ user.id := hvne
            have base := hbm v' hv item hmemI
            show item.id ∈ v'.borrowed_items ↔ some user.id = some v'.id
            rw [base, hCnone]
            simp [Ne.symm hvne2]
          · exact hbm v' hv j' hj
        · intro v' hv' j' hj'
          rw [users_updateUser, users_updateItem] at hv'
          rw [items_updateUser, items_updateItem] at hj'
          rcases mem_update_users hv' with rfl | ⟨hv, _⟩ <;>
            rcases mem_update_items hj' with rfl | ⟨hj, _⟩
          · exact hrm user hmemU item hmemI
          · exact hrm user hmemU j' hj
          · exact hrm v' hv item hmemI
          · exact hrm v' hv j' hj

/-- Core of the return-preservation argument: whatever the late-fee branch
did to the borrower record, as long as it kept the id and erased the item
from `borrowed_items`, well-formedness and the borrowed-side mirror
survive. -/
theorem return_core (s : LibState) (item : LibraryItem) (user : LibraryUser)
    (hNU : (s.users.map LibraryUser.id).Nodup)
    (hNI : (s.items.map LibraryItem.id).Nodup)
    (hBN : ∀ u ∈ s.users, u.borrowed_items.Nodup)
    (hF : ∀ it ∈ s.items,
      (it.status = ItemStatus.checked_out ↔ it.checked_out_to ≠ none) ∧
      (it.checked_out_to = none ↔ it.due_date = none))
    (hbm : borrowedMirror s)
    (hmemI : item ∈ s.items) (hmemU : user ∈ s.users)
    (hb : item.checked_out_to = some user.id)
    (U2 : LibraryUser) (hU2id : U2.id = user.id)
    (hU2b : U2.borrowed_items = user.borrowed_items.erase item.id) :
    storeWf (updateItem (updateUser s U2) (return_item.returnedItem item)) ∧
      borrowedMirror (updateItem (updateUser s U2) (return_item.returnedItem item)) := by
  refine ⟨⟨?_, ?_, ?_, ?_⟩, ?_⟩
  · rw [users_updateItem, users_updateUser, map_id_update_users]
    exact hNU
  · rw [items_updateItem, items_updateUser, map_id_update_items]
    exact hNI
  · intro v' hv'
    rw [users_updateItem, users_updateUser] at hv'
    rcases mem_update_users hv' with rfl | ⟨hv, _⟩
    · rw [hU2b]
      exact List.Nodup.erase _ (hBN user hmemU)
    · exact hBN v' hv
  · intro j' hj'
    rw [items_updateItem, items_updateUser] at hj'
    rcases mem_update_items hj' with rfl | ⟨hj, _⟩
    · simp [returnedItem_checked_out_to, returnedItem_due_date,
        returnedItem_not_checked_out]
    · exact hF j' hj
  · intro v' hv' j' hj'
    rw [users_updateItem, users_updateUser] at hv'
    rw [items_updateItem, items_updateUser] at hj'
    rcases mem_update_users hv' with rfl | ⟨hv, hvne⟩ <;>
      rcases mem_update_items hj' with rfl | ⟨hj, hjne⟩
    · rw [returnedItem_id, returnedItem_checked_out_to, hU2b, hU2id]
      simp [List.Nodup.not_mem_erase (hBN user hmemU)]
    · rw [returnedItem_id] at hjne
      rw [hU2b, hU2id, List.Nodup.mem_erase_iff (hBN user hmemU)]
      simp [hjne, hbm user hmemU j' hj]
    · rw [hU2id] at hvne
      rw [returnedItem_id, returnedItem_checked_out_to,
        hbm v' hv item hmemI, hb]
      simp [Ne.symm hvne]
    · exact hbm v' hv j' hj

/-- Operation `return_item` preserves store well-formedness and the borrowed-side
mirror (the reserved side is NOT preserved: see the C2 counterexample). -/
theorem return_item_preserves (s : LibState) (now : Int) (iid : String)
    (s' : LibState) (hwf : storeWf s) (hbm : borrowedMirror s)
    (hok : return_item s now iid = Except.ok s') :
    storeWf s' ∧ borrowedMirror s' := by
  obtain ⟨hNU, hNI, hBN, hF⟩ := hwf
  simp only [return_item] at hok
  cases hfi : findItem s iid with
  | none => simp [hfi] at hok
  | some item =>
    simp only [hfi] at hok
    split at hok
    · exact absurd hok (by simp)
    · rename_i hco'
      have hco : item.status = ItemStatus.checked_out := not_not.mp hco'
      obtain ⟨hmemI, hidI⟩ := findItem_mem hfi
      cases hbind : item.checked_out_to.bind (findUser s) with
      | none =>
        simp only [hbind] at hok
        injection hok with h
        subst h
        obtain ⟨b, hb⟩ : ∃ b, item.checked_out_to = some b := by
          rcases hcb : item.checked_out_to with _ | b
          · exact absurd hcb ((hF item hmemI).1.mp hco)
          · exact ⟨b, rfl⟩
        have husers : ∀ v ∈ s.users, v.id ≠ b := by
          intro v hv
          have h3 := hbind
          rw [hb, Option.some_bind] at h3
          simpa using List.find?_eq_none.mp h3 v hv
        refine ⟨⟨?_, ?_, ?_, ?_⟩, ?_⟩
        · exact hNU
        · rw [items_updateItem, map_id_update_items]
          exact hNI
        · intro v hv
          exact hBN v hv
        · intro j' hj'
          rw [items_updateItem] at hj'
          rcases mem_update_items hj' with rfl | ⟨hj, _⟩
          · simp [returnedItem_checked_out_to, returnedItem_due_date,
              returnedItem_not_checked_out]
          · exact hF j' hj
        · intro v hv j' hj'
          rw [items_updateItem] at hj'
          rcases mem_update_items hj' with rfl | ⟨hj, _⟩
          · rw [returnedItem_id, returnedItem_checked_out_to,
              hbm v hv item hmemI, hb]
            simp [Ne.symm (husers v hv)]
          · exact hbm v hv j' hj
      | some user =>
        simp only [hbind] at hok
        split at hok
        · rename_i hmem
          obtain ⟨b, hb, hub⟩ := Option.bind_eq_some.mp hbind
          obtain ⟨hmemU, hidU⟩ := findUser_mem hub
          have hb2 : item.checked_out_to = some user.id := by
            rw [hb, hidU]
          cases hdue : item.due_date with
          | none =>
            simp only [hdue] at hok
            injection hok with h
            subst h
            exact return_core s item user hNU hNI hBN hF hbm hmemI hmemU hb2
              _ rfl rfl
          | some due =>
            simp only [hdue] at hok
            by_cases hl : now > due
            · rw [if_pos hl] at hok
              injection hok with h
              subst h
              exact return_core s item user hNU hNI hBN hF hbm hmemI hmemU hb2
                _ rfl rfl
            · rw [if_neg hl] at hok
              injection hok with h
              subst h
              exact return_core s item user hNU hNI hBN hF hbm hmemI hmemU hb2
                _ rfl rfl
        · exact absurd hok (by simp)

/-- Operation `reserve_item` preserves store well-formedness and both mirror
directions. -/
theorem reserve_item_preserves (s : LibState) (uid iid : String)
    (s' : LibState) (hwf : storeWf s) (hbm : borrowedMirror s)
    (hrm : reservedMirror s)
    (hok : reserve_item s uid iid = Except.ok s') :
    storeWf s' ∧ borrowedMirror s' ∧ reservedMirror s' := by
  obtain ⟨hNU, hNI, hBN, hF⟩ := hwf
  simp only [reserve_item] at hok
  cases hfu : findUser s uid with
  | none => simp [hfu] at hok
  | some user =>
    cases hfi : findItem s iid with
    | none => simp [hfu, hfi] at hok
    | some item =>
      simp only [hfu, hfi] at hok
      split at hok
      · exact absurd hok (by simp)
      · injection hok with h
        subst h
        obtain ⟨hmemU, hidU⟩ := findUser_mem hfu
        obtain ⟨hmemI, hidI⟩ := findItem_mem hfi
        refine ⟨⟨?_, ?_, ?_, ?_⟩, ?_, ?_⟩
        · rw [users_updateUser, users_updateItem, map_id_update_users]
          exact hNU
        · rw [items_updateUser, items_updateItem, map_id_update_items]
          exact hNI
        · intro v' hv'
          rw [users_updateUser, users_updateItem] at hv'
          rcases mem_update_users hv' with rfl | ⟨hv, _⟩
          · exact hBN user hmemU
          · exact hBN v' hv
        · intro j' hj'
          rw [items_updateUser, items_updateItem] at hj'
          rcases mem_update_items hj' with rfl | ⟨hj, _⟩
          · exact hF item hmemI
          · exact hF j' hj
        · intro v' hv' j' hj'
          rw [users_updateUser, users_updateItem] at hv'
          rw [items_updateUser, items_updateItem] at hj'
          rcases mem_update_users hv' with rfl | ⟨hv, _⟩ <;>
            rcases mem_update_items hj' with rfl | ⟨hj, _⟩
          · exact hbm user hmemU item hmemI
          · exact hbm user hmemU j' hj
          · exact hbm v' hv item hmemI
          · exact hbm v' hv j' hj
        · intro v' hv' j' hj'
          rw [users_updateUser, users_updateItem] at hv'
          rw [items_updateUser, items_updateItem] at hj'
          rcases mem_update_users hv' with rfl | ⟨hv, hvne⟩ <;>
            rcases mem_update_items hj' with rfl | ⟨hj, hjne⟩
          · show item.id ∈ user.reserved_items ++ [iid] ↔
              user.id ∈ item.reserved_by ++ [uid]
            simp [hidI, hidU]
          · have hjne2 : j'.id ≠ item.id := hjne
            have hjne3 : j'.id ≠ iid := by
              rw [← hidI]
              exact hjne2
            show j'.id ∈ user.reserved_items ++ [iid] ↔ user.id ∈ j'.reserved_by
            rw [List.mem_append, List.mem_singleton]
            simp [hjne3, hrm user hmemU j' hj]
          · have hvne2 : v'.id ≠ user.id := hvne
            have hvne3 : v'.id ≠ uid := by
              rw [← hidU]
              exact hvne2
            show item.id ∈ v'.reserved_items ↔ v'.id ∈ item.reserved_by ++ [uid]
            rw [List.mem_append, List.mem_singleton]
            simp [hvne3, hrm v' hv item hmemI]
          · exact hrm v' hv j' hj

/-- Operation `pay_fines` preserves store well-formedness and both mirror
directions. -/
theorem pay_fines_preserves (s : LibState) (uid : String) (amount : ℚ)
    (s' : LibState) (hwf : storeWf s) (hbm : borrowedMirror s)
    (hrm : reservedMirror s)
    (hok : pay_fines s uid amount = Except.ok s') :
    storeWf s' ∧ borrowedMirror s' ∧ reservedMirror s' := by
  obtain ⟨hNU, hNI, hBN, hF⟩ := hwf
  simp only [pay_fines] at hok
  cases hfu : findUser s uid with
  | none => simp [hfu] at hok
  | some user =>
    simp only [hfu] at hok
    split at hok
    · exact absurd hok (by simp)
    · injection hok with h
      subst h
      obtain ⟨hmemU, hidU⟩ := findUser_mem hfu
      refine ⟨⟨?_, ?_, ?_, ?_⟩, ?_, ?_⟩
      · rw [users_updateUser, map_id_update_users]
        exact hNU
      · exact hNI
      · intro v' hv'
        rw [users_updateUser] at hv'
        rcases mem_update_users hv' with rfl | ⟨hv, _⟩
        · exact hBN user hmemU
        · exact hBN v' hv
      · intro j' hj'
        exact hF j' hj'
      · intro v' hv' j' hj'
        rw [users_updateUser] at hv'
        rcases mem_update_users hv' with rfl | ⟨hv, _⟩
        · exact hbm user hmemU j' hj'
        · exact hbm v' hv j' hj'
      · intro v' hv' j' hj'
        rw [users_updateUser] at hv'
        rcases mem_update_users hv' with rfl | ⟨hv, _⟩
        · exact hrm user hmemU j' hj'
        · exact hrm v' hv j' hj'

/-- Operation `add_user` with a fresh id (never referenced by any item) preserves
store well-formedness and both mirror directions. -/
theorem add_user_preserves (s : LibState) (uid nm em ph : String) (r : UserRole)
    (hwf : storeWf s) (hbm : borrowedMirror s) (hrm : reservedMirror s)
    (hfreshU : ∀ u ∈ s.users, u.id ≠ uid)
    (hfreshI : ∀ it ∈ s.items,
      it.checked_out_to ≠ some uid ∧ uid ∉ it.reserved_by) :
    storeWf (add_user s uid nm em ph r) ∧
      borrowedMirror (add_user s uid nm em ph r) ∧
      reservedMirror (add_user s uid nm em ph r) := by
  obtain ⟨hNU, hNI, hBN, hF⟩ := hwf
  refine ⟨⟨?_, ?_, ?_, ?_⟩, ?_, ?_⟩
  · simp only [add_user, List.map_append, List.map_cons, List.map_nil]
    rw [List.nodup_append]
    refine ⟨hNU, by simp, ?_⟩
    intro a ha hb
    rw [List.mem_singleton] at hb
    subst hb
    obtain ⟨u, hu, hue⟩ := List.mem_map.mp ha
    exact hfreshU u hu hue
  · exact hNI
  · intro v hv
    rcases List.mem_append.mp hv with h | h
    · exact hBN v h
    · rcases List.mem_singleton.mp h with rfl
      simp
  · intro j hj
    exact hF j hj
  · intro v hv it hit
    rcases List.mem_append.mp hv with h | h
    · exact hbm v h it hit
    · rcases List.mem_singleton.mp h with rfl
      simp [(hfreshI it hit).1]
  · intro v hv it hit
    rcases List.mem_append.mp hv with h | h
    · exact hrm v h it hit
    · rcases List.mem_singleton.mp h with rfl
      simp [(hfreshI it hit).2]

/-- Operation `add_item` of a freshly constructed item with a fresh id (never
referenced by any user) preserves store well-formedness and both mirror
directions. -/
theorem add_item_preserves (s : LibState) (iid t l : String) (c : ℚ)
    (k : ItemKind)
    (hwf : storeWf s) (hbm : borrowedMirror s) (hrm : reservedMirror s)
    (hfreshI : ∀ it ∈ s.items, it.id ≠ iid)
    (hfreshU : ∀ u ∈ s.users,
      iid ∉ u.borrowed_items ∧ iid ∉ u.reserved_items) :
    storeWf (add_item s (mkLibraryItem iid t l c k)) ∧
      borrowedMirror (add_item s (mkLibraryItem iid t l c k)) ∧
      reservedMirror (add_item s (mkLibraryItem iid t l c k)) := by
  obtain ⟨hNU, hNI, hBN, hF⟩ := hwf
  refine ⟨⟨?_, ?_, ?_, ?_⟩, ?_, ?_⟩
  · exact hNU
  · simp only [add_item, List.map_append, List.map_cons, List.map_nil]
    rw [List.nodup_append]
    refine ⟨hNI, by simp, ?_⟩
    intro a ha hb
    rw [List.mem_singleton] at hb
    subst hb
    obtain ⟨j, hj, hje⟩ := List.mem_map.mp ha
    exact hfreshI j hj hje
  · intro v hv
    exact hBN v hv
  · intro j hj
    rcases List.mem_append.mp hj with h | h
    · exact hF j h
    · rcases List.mem_singleton.mp h with rfl
      simp [mkLibraryItem]
  · intro v hv it hit
    rcases List.mem_append.mp hit with h | h
    · exact hbm v hv it h
    · rcases List.mem_singleton.mp h with rfl
      simp [mkLibraryItem, (hfreshU v hv).1]
  · intro v hv it hit
    rcases List.mem_append.mp hit with h | h
    · exact hrm v hv it h
    · rcases List.mem_singleton.mp h with rfl
      simp [mkLibraryItem, (hfreshU v hv).2]

/-- The item-not-found message always ends in the letter d, so it never
collides with the not-checked-out message, which ends in t. -/
theorem itemNotFoundErr_ne_notCheckedOutErr (i t : String) :
    itemNotFoundErr i ≠ notCheckedOutErr t := by
  refine libError_ne_of_msg (ne_of_last_char ?_)
  simp only [String.data_append, List.getLast?_append]
  rw [show (" not found" : String).data.getLast? = some 'd' from rfl]
  rw [show (" is not checked out" : String).data.getLast? = some 't' from rfl]
  rw [Option.or_some, Option.or_some]
  decide

theorem itemNotFoundErr_ne_alreadyReservedErr (i : String) :
    itemNotFoundErr i ≠ alreadyReservedErr := by
  refine libError_ne_of_msg (ne_of_last_char ?_)
  simp only [String.data_append, List.getLast?_append]
  rw [show (" not found" : String).data.getLast? = some 'd' from rfl]
  rw [Option.or_some]
  decide

theorem itemNotFoundErr_ne_overpayErr (i : String) :
    itemNotFoundErr i ≠ overpayErr := by
  refine libError_ne_of_msg (ne_of_last_char ?_)
  simp only [String.data_append, List.getLast?_append]
  rw [show (" not found" : String).data.getLast? = some 'd' from rfl]
  rw [Option.or_some]
  decide

/-- C9: every failure of the four fallible operations is one of the
UserNotFound / ItemNotFound / ItemNotAvailable / invalid-operation error
values (the latter being the not-checked-out, duplicate-reservation and
overpay errors), and error values of different kinds are always
distinguishable from one another — by exception class, or, for the kinds
sharing the base `LibraryException` class, by their message text. -/
theorem C9_error_kinds_distinguishable :
    (∀ s now uid iid e, check_out_item s now uid iid = Except.error e →
      e = userNotFoundErr uid ∨ e = itemNotFoundErr iid ∨
        ∃ t, e = itemNotAvailableErr t) ∧
    (∀ s now iid e,
      (∀ it b u, findItem s iid = some it → it.checked_out_to = some b →
        findUser s b = some u → it.id ∈ u.borrowed_items) →
      return_item s now iid = Except.error e →
      e = itemNotFoundErr iid ∨ ∃ t, e = notCheckedOutErr t) ∧
    (∀ s uid iid e, reserve_item s uid iid = Except.error e →
      e = userNotFoundErr uid ∨ e = itemNotFoundErr iid ∨
        e = alreadyReservedErr) ∧
    (∀ s uid amount e, pay_fines s uid amount = Except.error e →
      e = userNotFoundErr uid ∨ e = overpayErr) ∧
    (∀ u i, userNotFoundErr u ≠ itemNotFoundErr i) ∧
    (∀ u t, userNotFoundErr u ≠ itemNotAvailableErr t) ∧
    (∀ u t, userNotFoundErr u ≠ notCheckedOutErr t) ∧
    (∀ u, userNotFoundErr u ≠ alreadyReservedErr) ∧
    (∀ u, userNotFoundErr u ≠ overpayErr) ∧
    (∀ i t, itemNotFoundErr i ≠ itemNotAvailableErr t) ∧
    (∀ i t, itemNotFoundErr i ≠ notCheckedOutErr t) ∧
    (∀ i, itemNotFoundErr i ≠ alreadyReservedErr) ∧
    (∀ i, itemNotFoundErr i ≠ overpayErr) ∧
    (∀ t t2, itemNotAvailableErr t ≠ notCheckedOutErr t2) ∧
    (∀ t, itemNotAvailableErr t ≠ alreadyReservedErr) ∧
    (∀ t, itemNotAvailableErr t ≠ overpayErr) := by
  refine ⟨?_, ?_, ?_, ?_,
    fun u i => libError_ne_of_cls (by decide),
    fun u t => libError_ne_of_cls (by decide),
    fun u t => libError_ne_of_cls (by decide),
    fun u => libError_ne_of_cls (by decide),
    fun u => libError_ne_of_cls (by decide),
    fun i t => libError_ne_of_cls (by decide),
    itemNotFoundErr_ne_notCheckedOutErr,
    itemNotFoundErr_ne_alreadyReservedErr,
    itemNotFoundErr_ne_overpayErr,
    fun t t2 => libError_ne_of_cls (by decide),
    fun t => libError_ne_of_cls (by decide),
    fun t => libError_ne_of_cls (by decide)⟩
  · intro s now uid iid e he
    simp only [check_out_item] at he
    cases hfu : findUser s uid with
    | none =>
      simp only [hfu] at he
      injection he with h
      exact Or.inl h.symm
    | some user =>
      cases hfi : findItem s iid with
      | none =>
        simp only [hfu, hfi] at he
        injection he with h
        exact Or.inr (Or.inl h.symm)
      | some item =>
        simp only [hfu, hfi] at he
        split at he
        · injection he with h
          exact Or.inr (Or.inr ⟨item.title, h.symm⟩)
        · exact absurd he (by simp)
  · intro s now iid e hok he
    simp only [return_item] at he
    cases hfi : findItem s iid with
    | none =>
      simp only [hfi] at he
      injection he with h
      exact Or.inl h.symm
    | some item =>
      simp only [hfi] at he
      split at he
      · injection he with h
        exact Or.inr ⟨item.title, h.symm⟩
      · cases hbind : item.checked_out_to.bind (findUser s) with
        | none =>
          simp only [hbind] at he
          exact absurd he (by simp)
        | some user =>
          simp only [hbind] at he
          obtain ⟨b, hb, hub⟩ := Option.bind_eq_some.mp hbind
          have hmem := hok item b user hfi hb hub
          rw [if_pos hmem] at he
          exact absurd he (by simp)
  · intro s uid iid e he
    simp only [reserve_item] at he
    cases hfu : findUser s uid with
    | none =>
      simp only [hfu] at he
      injection he with h
      exact Or.inl h.symm
    | some user =>
      cases hfi : findItem s iid with
      | none =>
        simp only [hfu, hfi] at he
        injection he with h
        exact Or.inr (Or.inl h.symm)
      | some item =>
        simp only [hfu, hfi] at he
        split at he
        · injection he with h
          exact Or.inr (Or.inr h.symm)
        · exact absurd he (by simp)
  · intro s uid amount e he
    simp only [pay_fines] at he
    cases hfu : findUser s uid with
    | none =>
      simp only [hfu] at he
      injection he with h
      exact Or.inl h.symm
    | some user =>
      simp only [hfu] at he
      split at he
      · injection he with h
        exact Or.inr h.symm
      · exact absurd he (by simp)

/-! ## C2: counterexample state and amended preservation theorem -/

/-- A user who has queued a reservation for item `i`. -/
def cxA : LibraryUser := ⟨"a", "Al", "al", "1", .student, [], ["i"], 0⟩

/-- The user currently borrowing item `i`. -/
def cxB : LibraryUser := ⟨"b", "Bea", "bea", "2", .student, ["i"], [], 0⟩

/-- Item `i`: checked out to `b`, with `a` queued in `reserved_by`. -/
def cxI : LibraryItem :=
  ⟨"i", "Ti", "L", 1, .dvd "d" 90 2000, .checked_out, some "b", some 100, ["a"]⟩

/-- A fully well-formed, engine-reachable store (add both users and the
item, check it out to `b`, reserve it for `a`). -/
def cxS : LibState := ⟨[cxA, cxB], [cxI]⟩

/-- The store produced by returning item `i` from `cxS`: the front reserver
`a` has been popped from `reserved_by`, but item `i` still sits in `a`'s
`reserved_items`. -/
def cxS2 : LibState :=
  ⟨[cxA, ⟨"b", "Bea", "bea", "2", .student, [], [], 0⟩],
    [⟨"i", "Ti", "L", 1, .dvd "d" 90 2000, .reserved, none, none, []⟩]⟩

/-- C2 counterexample: `cxS` is well formed and satisfies the two-way mirror
invariant, yet `return_item` succeeds on it and produces a state violating
the invariant (user `a` still lists item `i` as reserved while `i`'s queue
no longer contains `a`) — so not every engine operation preserves the
invariant. -/
theorem C2_mirror_counterexample :
    storeWf cxS ∧ statusFieldInv cxS ∧ mirrorInv cxS ∧
    return_item cxS 0 "i" = Except.ok cxS2 ∧ ¬ mirrorInv cxS2 :=
  ⟨by decide, by decide, by decide, rfl, by decide⟩

/-- C2 amended: under the store well-formedness conditions the engine
maintains (duplicate-free ids and borrowed lists, status–field consistency),
`check_out_item`, `reserve_item`, `pay_fines`, `add_user` with a fresh id
and `add_item` with a fresh item preserve the two-way mirror invariant, and
`return_item` preserves its borrowed direction (but, per the counterexample,
not its reserved direction). -/
theorem C2_mirror_invariant_amended :
    (∀ s now uid iid s', storeWf s → mirrorInv s →
      check_out_item s now uid iid = Except.ok s' →
      storeWf s' ∧ mirrorInv s') ∧
    (∀ s uid iid s', storeWf s → mirrorInv s →
      reserve_item s uid iid = Except.ok s' →
      storeWf s' ∧ mirrorInv s') ∧
    (∀ s uid amount s', storeWf s → mirrorInv s →
      pay_fines s uid amount = Except.ok s' →
      storeWf s' ∧ mirrorInv s') ∧
    (∀ s uid nm em ph r, storeWf s → mirrorInv s →
      (∀ u ∈ s.users, u.id ≠ uid) →
      (∀ it ∈ s.items, it.checked_out_to ≠ some uid ∧ uid ∉ it.reserved_by) →
      storeWf (add_user s uid nm em ph r) ∧
        mirrorInv (add_user s uid nm em ph r)) ∧
    (∀ s iid t l c k, storeWf s → mirrorInv s →
      (∀ it ∈ s.items, it.id ≠ iid) →
      (∀ u ∈ s.users, iid ∉ u.borrowed_items ∧ iid ∉ u.reserved_items) →
      storeWf (add_item s (mkLibraryItem iid t l c k)) ∧
        mirrorInv (add_item s (mkLibraryItem iid t l c k))) ∧
    (∀ s now iid s', storeWf s → mirrorInv s →
      return_item s now iid = Except.ok s' →
      storeWf s' ∧ borrowedMirror s') := by
  refine ⟨?_, ?_, ?_, ?_, ?_, ?_⟩
  · rintro s now uid iid s' hwf ⟨hbm, hrm⟩ hok
    obtain ⟨h1, h2, h3⟩ := check_out_item_preserves s now uid iid s' hwf hbm hrm hok
    exact ⟨h1, h2, h3⟩
  · rintro s uid iid s' hwf ⟨hbm, hrm⟩ hok
    obtain ⟨h1, h2, h3⟩ := reserve_item_preserves s uid iid s' hwf hbm hrm hok
    exact ⟨h1, h2, h3⟩
  · rintro s uid amount s' hwf ⟨hbm, hrm⟩ hok
    obtain ⟨h1, h2, h3⟩ := pay_fines_preserves s uid amount s' hwf hbm hrm hok
    exact ⟨h1, h2, h3⟩
  · rintro s uid nm em ph r hwf ⟨hbm, hrm⟩ hfreshU hfreshI
    obtain ⟨h1, h2, h3⟩ := add_user_preserves s uid nm em ph r hwf hbm hrm hfreshU hfreshI
    exact ⟨h1, h2, h3⟩
  · rintro s iid t l c k hwf ⟨hbm, hrm⟩ hfreshI hfreshU
    obtain ⟨h1, h2, h3⟩ := add_item_preserves s iid t l c k hwf hbm hrm hfreshI hfreshU
    exact ⟨h1, h2, h3⟩
  · rintro s now iid s' hwf ⟨hbm, _⟩ hok
    exact return_item_preserves s now iid s' hwf hbm hok

/-! ## Concrete example states for the witnesses -/

/-- A user with a 3-dollar fine balance and nothing borrowed or reserved. -/
def exUser : LibraryUser :=
  ⟨"u1", "Ada", "ada", "555", .student, [], [], 3⟩

/-- An available book. -/
def exBook : LibraryItem :=
  ⟨"b1", "Dune", "A1", 20, .book "FH" "isbn1" "Ace" 1965 "1st",
    .available, none, none, []⟩

def exS : LibState := ⟨[exUser], [exBook]⟩

/-- A user currently borrowing item `b2`. -/
def exUser2 : LibraryUser := ⟨"u2", "Bo", "bo", "556", .faculty, ["b2"], [], 0⟩

/-- A checked-out DVD with two queued reservers. -/
def exItem2 : LibraryItem :=
  ⟨"b2", "Alien", "B2", 15, .dvd "RS" 117 1979, .checked_out, some "u2",
    some 500, ["u3", "u4"]⟩

def exS2 : LibState := ⟨[exUser2], [exItem2]⟩

/-- A user currently borrowing the book `b3`, with no fines yet. -/
def exUser3 : LibraryUser := ⟨"u3", "Cy", "cy", "557", .admin, ["b3"], [], 0⟩

/-- A book checked out at time 0, due 21 days later. -/
def exItem3 : LibraryItem :=
  ⟨"b3", "Emma", "C1", 20, .book "JA" "isbn3" "JM" 1815 "1st",
    .checked_out, some "u3", some (21 * 86400), []⟩

def exS3 : LibState := ⟨[exUser3], [exItem3]⟩

/-- Witness for C1: returning `b2` (checked out, queue `[u3, u4]`) succeeds,
pops `u3`, flips the status to RESERVED and leaves both borrower fields
null. -/
theorem C1_return_item_reservation_queue_witness :
    ∃ s' item', return_item exS2 900 "b2" = Except.ok s' ∧
      findItem s' "b2" = some item' ∧
      item'.reserved_by = ["u3", "u4"].tail ∧
      item'.checked_out_to = none ∧
      item'.due_date = none ∧
      (["u3", "u4"] ≠ ([] : List String) → item'.status = ItemStatus.reserved) ∧
      (["u3", "u4"] = ([] : List String) → item'.status = ItemStatus.available) :=
  C1_return_item_reservation_queue exS2 900 "b2" exItem2 rfl rfl
    (by
      intro b u hb hu
      have hb2 : "u2" = b := (Option.some.injEq _ _).mp hb
      subst hb2
      have hu2 : exUser2 = u := (Option.some.injEq _ _).mp hu
      subst hu2
      decide)

/-- Witness for C4: the spec's Book scenario — checked out at time 0 for 21
days, returned at day 25 — adds exactly 4 half-dollars, i.e. 2.00, to the
borrower's balance. -/
theorem C4_late_fine_witness :
    (∃ s' user', return_item exS3 (25 * 86400) "b3" = Except.ok s' ∧
        findUser s' "u3" = some user' ∧
        user'.fines = 0 +
          ((Int.ediv (25 * 86400 - 21 * 86400) 86400 : Int) : ℚ) * (1 / 2)) ∧
    (0 : ℚ) + ((Int.ediv (25 * 86400 - 21 * 86400) 86400 : Int) : ℚ) * (1 / 2) = 2 :=
  ⟨C4_late_fine exS3 (25 * 86400) "b3" "u3" exItem3 exUser3 (21 * 86400)
      rfl rfl rfl rfl (by decide) rfl (by decide),
    by norm_num⟩

/-- Witness for C5: checking out the available book `b1` to `u1` at time 0
succeeds with the described field updates. -/
theorem C5_check_out_item_witness :
    ∃ s' item' user', check_out_item exS 0 "u1" "b1" = Except.ok s' ∧
      findItem s' "b1" = some item' ∧ findUser s' "u1" = some user' ∧
      item'.status = ItemStatus.checked_out ∧
      item'.checked_out_to = some "u1" ∧
      item'.due_date = some (0 + 21 * 86400) ∧
      user'.borrowed_items = [] ++ ["b1"] :=
  (C5_check_out_item exS 0 "u1" "b1" exUser exBook rfl rfl).1 rfl

/-- Witness for C6: `u1` reserving `b1` appends to both queues; reserving it
again immediately fails. -/
theorem C6_reserve_item_witness :
    ∃ s' user' item', reserve_item exS "u1" "b1" = Except.ok s' ∧
      findUser s' "u1" = some user' ∧ findItem s' "b1" = some item' ∧
      item'.reserved_by = [] ++ ["u1"] ∧
      user'.reserved_items = [] ++ ["b1"] ∧
      reserve_item s' "u1" "b1" = Except.error alreadyReservedErr :=
  (C6_reserve_item exS "u1" "b1" exUser exBook rfl rfl).2 (by decide)

/-- Witness for C7: with a balance of 3, paying 5 fails with the overpay
error, and paying exactly 3 brings the balance to 0. -/
theorem C7_pay_fines_witness :
    pay_fines exS "u1" 5 = Except.error overpayErr ∧
    ∃ s' user', pay_fines exS "u1" 3 = Except.ok s' ∧
      findUser s' "u1" = some user' ∧ user'.fines = 0 :=
  ⟨(C7_pay_fines exS "u1" 5 exUser rfl).1 (by decide),
    (C7_pay_fines exS "u1" 3 exUser rfl).2.2 (by decide)⟩

/-- Witness for the amended C2: reserving `b1` for `u1` in the well-formed
store `exS` preserves well-formedness and the two-way mirror invariant. -/
theorem C2_mirror_invariant_amended_witness :
    storeWf (updateUser (updateItem exS
      { exBook with reserved_by := [] ++ ["u1"] })
      { exUser with reserved_items := [] ++ ["b1"] }) ∧
    mirrorInv (updateUser (updateItem exS
      { exBook with reserved_by := [] ++ ["u1"] })
      { exUser with reserved_items := [] ++ ["b1"] }) :=
  C2_mirror_invariant_amended.2.1 exS "u1" "b1" _ (by decide) (by decide) rfl

/-- Witness for C9: checking out with an unknown user reports the
UserNotFound value, and returning the not-checked-out book `b1` reports the
not-checked-out invalid-operation value. -/
theorem C9_error_kinds_distinguishable_witness :
    (userNotFoundErr "ghost" = userNotFoundErr "ghost" ∨
      userNotFoundErr "ghost" = itemNotFoundErr "b1" ∨
      ∃ t, userNotFoundErr "ghost" = itemNotAvailableErr t) ∧
    (notCheckedOutErr "Dune" = itemNotFoundErr "b1" ∨
      ∃ t, notCheckedOutErr "Dune" = notCheckedOutErr t) :=
  ⟨C9_error_kinds_distinguishable.1 exS 0 "ghost" "b1"
      (userNotFoundErr "ghost") rfl,
    C9_error_kinds_distinguishable.2.1 exS 0 "b1" (notCheckedOutErr "Dune")
      (fun it b u h1 h2 _ => by
        have h3 : exBook = it := (Option.some.injEq _ _).mp h1
        subst h3
        exact Option.noConfusion h2)
      rfl⟩

/-- Witness for C3: the invariant holds in the concrete store `exS` and is
still true after checking `b1` out to `u1` there. -/
theorem C3_checked_out_iff_fields_witness :
    statusFieldInv exS ∧
    statusFieldInv (updateUser (updateItem exS
      { exBook with status := .checked_out, checked_out_to := some "u1",
                    due_date := some (0 + 21 * 86400) })
      { exUser with borrowed_items := [] ++ ["b1"] }) :=
  ⟨by decide, C3_checked_out_iff_fields.2.1 exS 0 "u1" "b1" _ (by decide) rfl⟩

/-- Witness for C10: paying the negative amount -5 against a balance of 3
succeeds and raises the balance to 8. -/
theorem C10_pay_fines_no_lower_bound_witness :
    ∃ s' user', pay_fines exS "u1" (-5) = Except.ok s' ∧
      findUser s' "u1" = some user' ∧
      user'.fines = 3 - (-5) ∧
      ((-5 : ℚ) < 0 → user'.fines > 3) :=
  C10_pay_fines_no_lower_bound exS "u1" (-5) exUser rfl (by decide)

end LibSys
